import Mathlib

/-
  Verification of the jsonrpc2 server codec (a JSON-RPC 2.0 server-side
  wire adapter).  The Go sources embedded here are the codec in
  src/unnamed/part_000 and the error taxonomy in src/error.go.  Raw JSON
  values (json.RawMessage) are modelled by an inductive Json type; a Go
  pointer that may be nil is modelled by Option; the Go map
  pending map[uint64]*json.RawMessage is modelled by an association list
  with lookup/insert/delete operations matching Go map semantics; the
  uint64 sequence counter wraps modulo 2^64.  Stream I/O is modelled by
  an explicit trace of wire items, and the outcomes of the JSON encoder
  and of raw stream writes are supplied as explicit parameters.
-/

set_option autoImplicit false

namespace Jsonrpc2

/-- Json models an arbitrary JSON value, as carried by json.RawMessage. -/
inductive Json where
  | null : Json
  | bool : Bool → Json
  | num : Int → Json
  | str : String → Json
  | arr : List Json → Json
  | obj : List (String × Json) → Json

/-- Version is the protocol version constant from the source: "2.0". -/
def Version : String := "2.0"

/-- ErrCodeParse mirrors the constant ErrCodeParse = -32700 in error.go. -/
def ErrCodeParse : Int := -32700

/-- ErrCodeInvalidReq mirrors ErrCodeInvalidReq = -32600 in error.go. -/
def ErrCodeInvalidReq : Int := -32600

/-- ErrCodeMethodNotFound mirrors ErrCodeMethodNotFound = -32601 in error.go. -/
def ErrCodeMethodNotFound : Int := -32601

/-- ErrCodeInvalidParams mirrors ErrCodeInvalidParams = -32602 in error.go. -/
def ErrCodeInvalidParams : Int := -32602

/-- ErrCodeInternal mirrors ErrCodeInternal = -32603 in error.go. -/
def ErrCodeInternal : Int := -32603

/-- ErrMsgParse mirrors the message constant in error.go. -/
def ErrMsgParse : String := "Parse error"

/-- ErrMsgInvalidReq mirrors the message constant in error.go. -/
def ErrMsgInvalidReq : String := "Invalid Request"

/-- ErrMsgInvalidParams mirrors the message constant in error.go. -/
def ErrMsgInvalidParams : String := "Invalid params"

/-- Error mirrors the struct Error of error.go: code, message and an
optional structured data payload (the codec itself only ever stores a
string there, so the payload is modelled as Option String). -/
structure Error where
  code : Int
  msg : String
  data : Option String := none
  deriving DecidableEq

/-- GoError models a Go error value returned by a codec method: either a
typed RPC error (a *jsonrpc2.Error) or a plain local error such as the
result of errors.New or a decode failure surfaced verbatim. -/
inductive GoError where
  | rpc : Error → GoError
  | localErr : String → GoError
  deriving DecidableEq

/-- mapLookup models a Go map read m[k]: the outer Option is the ok flag,
the inner Option Json is the stored *json.RawMessage (none = nil pointer). -/
def mapLookup (m : List (Nat × Option Json)) (k : Nat) : Option (Option Json) :=
  match m with
  | [] => none
  | (k2, v) :: rest => if k = k2 then some v else mapLookup rest k

/-- mapDelete models the Go built-in delete(m, k). -/
def mapDelete (m : List (Nat × Option Json)) (k : Nat) : List (Nat × Option Json) :=
  m.filter (fun p => p.1 != k)

/-- mapInsert models a Go map write m[k] = v. -/
def mapInsert (m : List (Nat × Option Json)) (k : Nat) (v : Option Json) :
    List (Nat × Option Json) :=
  (k, v) :: mapDelete m k

/-- serverRequest mirrors the struct serverRequest: jsonrpc version,
method, optional raw params and optional raw id.  A member absent from
the wire leaves the field at its reset value (empty string or nil). -/
structure serverRequest where
  Version : String
  Method : String
  Params : Option Json
  Id : Option Json

/-- reset mirrors (*serverRequest).reset: all fields cleared. -/
def serverRequest.reset : serverRequest :=
  { Version := "", Method := "", Params := none, Id := none }

/-- serverResponse mirrors the struct serverResponse.  Id is the raw
message the written pointer refers to (the code always writes it
non-nil); Result and Error carry omitempty, so none means the member is
omitted from the serialized envelope. -/
structure serverResponse where
  Version : String
  Id : Json
  Result : Option Json := none
  Error : Option Error := none

/-- serverCodec models the mutable state of the struct serverCodec: the
sequence counter, the pending correlation table and the transient request
work space.  The decoder/encoder/stream handles carry no state that the
verified operations read, so they are left out; their I/O outcomes enter
as explicit parameters of the operations. -/
structure serverCodec where
  seq : Nat
  pending : List (Nat × Option Json)
  req : serverRequest

/-- Modelled from the spec: the dispatch-engine request record handed to
ReadRequestHeader, whose declaration is not among the given sources (§6:
a call is addressed by sequence number and method name). -/
structure Request where
  ServiceMethod : String
  Seq : Nat
  deriving DecidableEq

/-- Modelled from the spec: the dispatch-engine response record handed to
WriteResponse, whose declaration is not among the given sources (§6:
WriteResponse receives the sequence number and an optional error). -/
structure Response where
  Seq : Nat
  Error : Option Error := none
  deriving DecidableEq

/-- WireItem is one observable write to the connection: either a JSON
envelope passed to enc.Encode, or raw bytes passed to c.c.Write. -/
inductive WireItem where
  | envelope : serverResponse → WireItem
  | raw : String → WireItem

/-- dotChar is the qualifier separator searched for by strings.LastIndex. -/
def dotChar : Char := '.'

/-- lastIndexAux scans the characters accumulating the index of the last
occurrence, starting from -1 as in strings.LastIndex. -/
def lastIndexAux (l : List Char) (c : Char) (i : Nat) (acc : Int) : Int :=
  match l with
  | [] => acc
  | x :: xs => lastIndexAux xs c (i + 1) (if x = c then Int.ofNat i else acc)

/-- lastIndex models strings.LastIndex(s, c): the position of the last
occurrence of c in s, or -1 when absent. -/
def lastIndex (s : String) (c : Char) : Int :=
  lastIndexAux s.data c 0 (-1)

/-- illFormedMsg is the diagnostic text built by ReadRequestHeader. -/
def illFormedMsg : String := "rpc: service/method request ill-formed: "

/-- invalidSeqMsg is the errors.New text of WriteResponse. -/
def invalidSeqMsg : String := "invalid sequence number in response"

/-- newlineStr is the delimiter written for a notification. -/
def newlineStr : String := "\n"

/-- readRequestHeader models (*serverCodec).ReadRequestHeader.  The
outcome of dec.Decode(&c.req) is supplied as the argument decoded (after
reset, a successful decode leaves exactly the decoded serverRequest in
the work space).  The result is the updated codec, the updated Request
and the returned Go error (none on success). -/
def readRequestHeader (c : serverCodec) (r : Request)
    (decoded : Except String serverRequest) :
    serverCodec × Request × Option GoError :=
  let c1 : serverCodec := { c with req := serverRequest.reset }
  match decoded with
  | Except.error e => (c1, r, some (GoError.localErr e))
  | Except.ok sreq =>
    let c2 : serverCodec := { c1 with req := sreq }
    let r1 : Request := { r with ServiceMethod := sreq.Method }
    if lastIndex r1.ServiceMethod dotChar < 0 then
      (c2, r1, some (GoError.rpc
        { code := ErrCodeInvalidReq
          msg := ErrMsgInvalidReq
          data := some (illFormedMsg ++ r1.ServiceMethod) }))
    else
      let newSeq := (c2.seq + 1) % 2 ^ 64
      let c3 : serverCodec :=
        { c2 with
          seq := newSeq
          pending := mapInsert c2.pending newSeq sreq.Id
          req := { sreq with Id := none } }
      (c3, { r1 with Seq := newSeq }, none)

/-- readRequestBody models (*serverCodec).ReadRequestBody.  The untyped
destination x is modelled as an optional slot of the destination type α
(none = the nil interface), and json.Unmarshal of the raw params into
that destination is supplied as the function unmarshal.  The result is
the filled destination (some v on a successful decode) and the returned
Go error. -/
def readRequestBody {α : Type} (c : serverCodec) (x : Option α)
    (unmarshal : Json → Except String α) : Option α × Option GoError :=
  match x with
  | none => (none, none)
  | some _ =>
    match c.req.Params with
    | none =>
      (none, some (GoError.rpc { code := ErrCodeInvalidParams, msg := ErrMsgInvalidParams }))
    | some p =>
      match unmarshal p with
      | Except.error _ =>
        (none, some (GoError.rpc { code := ErrCodeParse, msg := ErrMsgParse }))
      | Except.ok v => (some v, none)

/-- writeResponse models (*serverCodec).WriteResponse.  The caller-passed
result value x is carried as its JSON serialization; encErr is the
outcome c.enc.Encode(resp) would return if an envelope is encoded, and
rawWriteErr the outcome of c.c.Write for the notification delimiter
(whose return value the source discards).  The result is the updated
codec, the trace of writes issued to the connection, and the returned Go
error. -/
def writeResponse (c : serverCodec) (r : Response) (x : Json)
    (encErr : Option String) (rawWriteErr : Option String) :
    serverCodec × List WireItem × Option GoError :=
  match mapLookup c.pending r.Seq with
  | none =>
    match r.Error with
    | some e =>
      let resp : serverResponse :=
        { Version := Version, Id := Json.null, Result := none, Error := some e }
      (c, [WireItem.envelope resp], encErr.map GoError.localErr)
    | none => (c, [], some (GoError.localErr invalidSeqMsg))
  | some b =>
    let c1 : serverCodec := { c with pending := mapDelete c.pending r.Seq }
    match b with
    | none => (c1, [WireItem.raw newlineStr], none)
    | some idJson =>
      let resp : serverResponse :=
        { Version := Version
          Id := idJson
          Result := if r.Error.isSome then none else some x
          Error := r.Error }
      (c1, [WireItem.envelope resp], encErr.map GoError.localErr)

/-! Helper lemmas about the map model. -/

/-- Deleting a key removes it from lookup. -/
theorem mapLookup_mapDelete_self (m : List (Nat × Option Json)) (k : Nat) :
    mapLookup (mapDelete m k) k = none := by
  induction m with
  | nil => rfl
  | cons p rest ih =>
    rcases p with ⟨a, v⟩
    by_cases h : a = k
    · simpa [mapDelete, List.filter_cons, h] using ih
    · have hk : ¬ k = a := fun hh => h hh.symm
      simpa [mapDelete, List.filter_cons, h, mapLookup, hk] using ih

/-- Inserting a key makes lookup return the stored value. -/
theorem mapLookup_mapInsert_self (m : List (Nat × Option Json)) (k : Nat)
    (v : Option Json) : mapLookup (mapInsert m k v) k = some v := by
  simp [mapInsert, mapLookup]

/-! Concrete fixtures used by the witness theorems. -/

/-- cPend is a codec with one pending entry: sequence 1 bound to id 7. -/
def cPend : serverCodec :=
  { seq := 1, pending := [(1, some (Json.num 7))], req := serverRequest.reset }

/-- cNotif is a codec whose pending entry for sequence 1 is the
notification marker (a nil raw-message pointer). -/
def cNotif : serverCodec :=
  { seq := 1, pending := [(1, none)], req := serverRequest.reset }

/-- cEmpty is a codec with no pending entries. -/
def cEmpty : serverCodec :=
  { seq := 0, pending := [], req := serverRequest.reset }

/-- respOk is a Response for sequence 1 with no error. -/
def respOk : Response := { Seq := 1, Error := none }

/-- errCustom is a sample handler error in the implementation-reserved band. -/
def errCustom : Error := { code := -32001, msg := "Server error" }

/-- respErr is a Response for sequence 1 carrying errCustom. -/
def respErr : Response := { Seq := 1, Error := some errCustom }

/-- readRequestHeader on a decoded request lacking the qualifier
separator reduces to the typed Invalid Request error; sequence counter
and pending table are untouched. -/
theorem readRequestHeader_eq_of_no_dot (c : serverCodec) (r : Request)
    (sreq : serverRequest) (hdot : lastIndex sreq.Method dotChar < 0) :
    readRequestHeader c r (Except.ok sreq) =
      ({ seq := c.seq, pending := c.pending, req := sreq },
        { ServiceMethod := sreq.Method, Seq := r.Seq },
        some (GoError.rpc
          { code := ErrCodeInvalidReq
            msg := ErrMsgInvalidReq
            data := some (illFormedMsg ++ sreq.Method) })) := by
  simp only [readRequestHeader]
  split
  · rfl
  · rename_i hneg
    exact absurd hdot hneg

/-- readRequestHeader on a decoded request whose method contains the
qualifier separator allocates the next sequence number, stores the raw
identifier in the pending table, clears the work-space identifier and
succeeds. -/
theorem readRequestHeader_eq_of_dot (c : serverCodec) (r : Request)
    (sreq : serverRequest) (hdot : ¬ lastIndex sreq.Method dotChar < 0) :
    readRequestHeader c r (Except.ok sreq) =
      ({ seq := (c.seq + 1) % 2 ^ 64
         pending := mapInsert c.pending ((c.seq + 1) % 2 ^ 64) sreq.Id
         req := { sreq with Id := none } },
        { ServiceMethod := sreq.Method, Seq := (c.seq + 1) % 2 ^ 64 },
        none) := by
  simp only [readRequestHeader]
  split
  · rename_i hpos
    exact absurd hpos hdot
  · rfl

/-- writeResponse at a sequence number with no pending entry carrying an
error: the null-identifier envelope with that error is written and, with
the encoder succeeding, the call returns success. -/
theorem writeResponse_eq_of_no_entry_error (c : serverCodec) (r : Response)
    (x : Json) (w : Option String) (e : Error)
    (h : mapLookup c.pending r.Seq = none) (he : r.Error = some e) :
    writeResponse c r x none w =
      (c, [WireItem.envelope
            { Version := Version, Id := Json.null, Result := none, Error := some e }],
        none) := by
  unfold writeResponse
  rw [h, he]
  rfl

/-- writeResponse at a sequence number with no pending entry and no error
set: nothing is written and the local invalid-sequence error is returned. -/
theorem writeResponse_eq_of_no_entry_no_error (c : serverCodec) (r : Response)
    (x : Json) (e w : Option String)
    (h : mapLookup c.pending r.Seq = none) (he : r.Error = none) :
    writeResponse c r x e w = (c, [], some (GoError.localErr invalidSeqMsg)) := by
  unfold writeResponse
  rw [h, he]

/-! Claims. -/

/-- C1: a WriteResponse that finds the pending entry for its sequence
number succeeds and removes that entry, so a second WriteResponse for the
same sequence number with no error set finds no entry, writes nothing and
fails with the local invalid-sequence error. -/
theorem writeResponse_at_most_once
    (c : serverCodec) (r r2 : Response) (x x2 : Json) (b : Option Json)
    (w e2 w2 : Option String)
    (hpend : mapLookup c.pending r.Seq = some b)
    (hseq : r2.Seq = r.Seq) (herr : r2.Error = none) :
    (writeResponse c r x none w).2.2 = none ∧
    mapLookup (writeResponse c r x none w).1.pending r.Seq = none ∧
    writeResponse (writeResponse c r x none w).1 r2 x2 e2 w2 =
      ((writeResponse c r x none w).1, [], some (GoError.localErr invalidSeqMsg)) := by
  have h1 : (writeResponse c r x none w).1 =
      { c with pending := mapDelete c.pending r.Seq } := by
    unfold writeResponse
    rw [hpend]
    cases b <;> rfl
  have h2 : (writeResponse c r x none w).2.2 = none := by
    unfold writeResponse
    rw [hpend]
    cases b <;> rfl
  have h3 : mapLookup (writeResponse c r x none w).1.pending r.Seq = none := by
    rw [h1]
    exact mapLookup_mapDelete_self c.pending r.Seq
  refine ⟨h2, h3, ?_⟩
  have h4 : mapLookup (writeResponse c r x none w).1.pending r2.Seq = none := by
    rw [hseq]; exact h3
  exact writeResponse_eq_of_no_entry_no_error _ r2 x2 e2 w2 h4 herr

/-- C1 witness: at a codec holding the entry for sequence 1, the first
write succeeds and consumes the entry and the second write fails locally. -/
theorem writeResponse_at_most_once_witness :
    (writeResponse cPend respOk (Json.num 3) none none).2.2 = none ∧
    mapLookup (writeResponse cPend respOk (Json.num 3) none none).1.pending
      respOk.Seq = none ∧
    writeResponse (writeResponse cPend respOk (Json.num 3) none none).1 respOk
        (Json.num 4) none none =
      ((writeResponse cPend respOk (Json.num 3) none none).1, [],
        some (GoError.localErr invalidSeqMsg)) :=
  writeResponse_at_most_once cPend respOk respOk (Json.num 3) (Json.num 4)
    (some (Json.num 7)) none none none rfl rfl rfl

/-- C2: when the stored identifier for the sequence number is the
notification marker, WriteResponse writes only the newline delimiter — no
response envelope reaches the stream — and returns success. -/
theorem writeResponse_notification_suppressed
    (c : serverCodec) (r : Response) (x : Json) (e w : Option String)
    (h : mapLookup c.pending r.Seq = some none) :
    (writeResponse c r x e w).2.1 = [WireItem.raw newlineStr] ∧
    (∀ resp : serverResponse,
      WireItem.envelope resp ∉ (writeResponse c r x e w).2.1) ∧
    (writeResponse c r x e w).2.2 = none := by
  have hred : writeResponse c r x e w =
      ({ c with pending := mapDelete c.pending r.Seq },
        [WireItem.raw newlineStr], none) := by
    unfold writeResponse
    rw [h]
  rw [hred]
  refine ⟨rfl, ?_, rfl⟩
  intro resp hmem
  simp at hmem

/-- C2 witness: the theorem applied at a codec whose entry for sequence 1
is the notification marker. -/
theorem writeResponse_notification_suppressed_witness :
    (writeResponse cNotif respOk Json.null none none).2.1 =
      [WireItem.raw newlineStr] ∧
    (∀ resp : serverResponse,
      WireItem.envelope resp ∉ (writeResponse cNotif respOk Json.null none none).2.1) ∧
    (writeResponse cNotif respOk Json.null none none).2.2 = none :=
  writeResponse_notification_suppressed cNotif respOk Json.null none none rfl

/-- C3: when no pending entry exists for the sequence number,
WriteResponse writes an envelope with identifier null carrying exactly the
supplied error and returns success; with no error supplied it writes
nothing and returns the local invalid-sequence error. -/
theorem writeResponse_unknown_seq
    (c : serverCodec) (r : Response) (x : Json) (w : Option String)
    (h : mapLookup c.pending r.Seq = none) :
    (∀ e : Error, r.Error = some e →
      writeResponse c r x none w =
        (c, [WireItem.envelope
              { Version := Version, Id := Json.null, Result := none, Error := some e }],
          none)) ∧
    (r.Error = none →
      writeResponse c r x none w = (c, [], some (GoError.localErr invalidSeqMsg))) := by
  constructor
  · intro e he
    unfold writeResponse
    rw [h, he]
    rfl
  · intro he
    exact writeResponse_eq_of_no_entry_no_error c r x none w h he

/-- C3 witness: at the empty codec, a write carrying an error produces the
null-id error envelope and succeeds, and a write with no error fails. -/
theorem writeResponse_unknown_seq_witness :
    writeResponse cEmpty respErr Json.null none none =
      (cEmpty,
        [WireItem.envelope
          { Version := Version, Id := Json.null, Result := none, Error := some errCustom }],
        none) ∧
    writeResponse cEmpty respOk Json.null none none =
      (cEmpty, [], some (GoError.localErr invalidSeqMsg)) :=
  ⟨(writeResponse_unknown_seq cEmpty respErr Json.null none rfl).1 errCustom rfl,
    (writeResponse_unknown_seq cEmpty respOk Json.null none rfl).2 rfl⟩

/-- req0 is a blank dispatch-engine request record. -/
def req0 : Request := { ServiceMethod := "", Seq := 0 }

/-- paramsJson is a sample raw params value: the array [42, 23]. -/
def paramsJson : Json := Json.arr [Json.num 42, Json.num 23]

/-- sreqNoDot is a decoded request whose method lacks the qualifier. -/
def sreqNoDot : serverRequest :=
  { Version := Version, Method := "echo", Params := none, Id := some (Json.num 1) }

/-- sreqArith is a decoded request for method Arith.Sub with id 1. -/
def sreqArith : serverRequest :=
  { Version := Version, Method := "Arith.Sub", Params := some paramsJson
    Id := some (Json.num 1) }

/-- sreqOldVersion is a decoded request whose jsonrpc member reads 1.0. -/
def sreqOldVersion : serverRequest :=
  { Version := "1.0", Method := "Arith.Sub", Params := some paramsJson
    Id := some (Json.num 1) }

/-- cParams is a codec whose work space holds a request carrying params. -/
def cParams : serverCodec :=
  { seq := 1, pending := [], req := sreqArith }

/-- decodeFailMsg is a sample json.Unmarshal failure text. -/
def decodeFailMsg : String := "json: cannot unmarshal value"

/-- writeFailMsg is a sample stream-write failure text. -/
def writeFailMsg : String := "broken pipe"

/-- umOk is an unmarshal outcome that accepts the raw params verbatim. -/
def umOk : Json → Except String Json := fun j => Except.ok j

/-- umFail is an unmarshal outcome for a destination-shape mismatch. -/
def umFail : Json → Except String Json := fun _ => Except.error decodeFailMsg

/-- errNoDot is the Invalid Request error produced for method echo. -/
def errNoDot : Error :=
  { code := ErrCodeInvalidReq, msg := ErrMsgInvalidReq
    data := some (illFormedMsg ++ sreqNoDot.Method) }

/-- C4: a decoded request whose method lacks the dot qualifier makes
ReadRequestHeader fail with the typed RPC error of code -32600 and
message Invalid Request whose data names the offending method string, and
writing that error back for a sequence number with no pending entry
produces an envelope whose identifier is JSON null. -/
theorem readRequestHeader_missing_qualifier
    (c : serverCodec) (r : Request) (sreq : serverRequest)
    (hdot : lastIndex sreq.Method dotChar < 0) :
    (readRequestHeader c r (Except.ok sreq)).2.2 =
      some (GoError.rpc
        { code := ErrCodeInvalidReq, msg := ErrMsgInvalidReq
          data := some (illFormedMsg ++ sreq.Method) }) ∧
    (∀ s : Nat, ∀ x : Json, ∀ w : Option String,
      mapLookup c.pending s = none →
      writeResponse (readRequestHeader c r (Except.ok sreq)).1
          { Seq := s
            Error := some { code := ErrCodeInvalidReq, msg := ErrMsgInvalidReq
                            data := some (illFormedMsg ++ sreq.Method) } }
          x none w =
        ((readRequestHeader c r (Except.ok sreq)).1,
          [WireItem.envelope
            { Version := Version, Id := Json.null, Result := none
              Error := some { code := ErrCodeInvalidReq, msg := ErrMsgInvalidReq
                              data := some (illFormedMsg ++ sreq.Method) } }],
          none)) := by
  rw [readRequestHeader_eq_of_no_dot c r sreq hdot]
  refine ⟨rfl, ?_⟩
  intro s x w hnone
  exact writeResponse_eq_of_no_entry_error _ _ x w _ hnone rfl

/-- C4 witness: the request with method echo is rejected with the typed
-32600 error and its error response carries identifier null. -/
theorem readRequestHeader_missing_qualifier_witness :
    (readRequestHeader cEmpty req0 (Except.ok sreqNoDot)).2.2 =
      some (GoError.rpc errNoDot) ∧
    writeResponse (readRequestHeader cEmpty req0 (Except.ok sreqNoDot)).1
        { Seq := 5, Error := some errNoDot } Json.null none none =
      ((readRequestHeader cEmpty req0 (Except.ok sreqNoDot)).1,
        [WireItem.envelope
          { Version := Version, Id := Json.null, Result := none
            Error := some errNoDot }],
        none) :=
  ⟨(readRequestHeader_missing_qualifier cEmpty req0 sreqNoDot (by decide)).1,
    (readRequestHeader_missing_qualifier cEmpty req0 sreqNoDot (by decide)).2
      5 Json.null none rfl⟩

/-- C5: ReadRequestBody succeeds trivially on a nil destination, fails
with the -32602 Invalid params error when the request had no params
member, fails with the -32700 Parse error when decoding the raw params
into the destination fails, and otherwise fills the destination and
succeeds. -/
theorem readRequestBody_spec {α : Type} (c : serverCodec)
    (um : Json → Except String α) (d : α) :
    (readRequestBody c (none : Option α) um = (none, none)) ∧
    (c.req.Params = none →
      readRequestBody c (some d) um =
        (none, some (GoError.rpc
          { code := ErrCodeInvalidParams, msg := ErrMsgInvalidParams }))) ∧
    (∀ p : Json, ∀ s : String, c.req.Params = some p → um p = Except.error s →
      readRequestBody c (some d) um =
        (none, some (GoError.rpc { code := ErrCodeParse, msg := ErrMsgParse }))) ∧
    (∀ p : Json, ∀ v : α, c.req.Params = some p → um p = Except.ok v →
      readRequestBody c (some d) um = (some v, none)) := by
  refine ⟨rfl, ?_, ?_, ?_⟩
  · intro hp
    simp only [readRequestBody, hp]
  · intro p s hp hu
    simp only [readRequestBody, hp, hu]
  · intro p v hp hu
    simp only [readRequestBody, hp, hu]

/-- C5 witness: the four branches at concrete codecs — nil destination,
missing params, failing decode, successful decode. -/
theorem readRequestBody_spec_witness :
    readRequestBody cEmpty (none : Option Json) umOk = (none, none) ∧
    readRequestBody cEmpty (some Json.null) umOk =
      (none, some (GoError.rpc
        { code := ErrCodeInvalidParams, msg := ErrMsgInvalidParams })) ∧
    readRequestBody cParams (some Json.null) umFail =
      (none, some (GoError.rpc { code := ErrCodeParse, msg := ErrMsgParse })) ∧
    readRequestBody cParams (some Json.null) umOk = (some paramsJson, none) :=
  ⟨(readRequestBody_spec cEmpty umOk Json.null).1,
    (readRequestBody_spec cEmpty umOk Json.null).2.1 rfl,
    (readRequestBody_spec cParams umFail Json.null).2.2.1
      paramsJson decodeFailMsg rfl rfl,
    (readRequestBody_spec cParams umOk Json.null).2.2.2
      paramsJson paramsJson rfl rfl⟩

/-- Modelled from the spec: the bare method name, i.e. the part of the
method string after the last qualifier separator, which §4.2 step 5 says
is returned to the caller. -/
def specBareMethod (s : String) : String :=
  String.mk ((s.data.reverse.takeWhile (fun ch => ch != dotChar)).reverse)

/-- C6 counterexample: for method Arith.Sub the header read succeeds but
hands the caller the full qualified string Arith.Sub, not the bare name
Sub that the claim says is returned. -/
theorem readRequestHeader_bare_method_counterexample :
    (readRequestHeader cEmpty req0 (Except.ok sreqArith)).2.2 = none ∧
    (readRequestHeader cEmpty req0 (Except.ok sreqArith)).2.1.ServiceMethod =
      sreqArith.Method ∧
    specBareMethod sreqArith.Method = String.mk [Char.ofNat 83, Char.ofNat 117, Char.ofNat 98] ∧
    (readRequestHeader cEmpty req0 (Except.ok sreqArith)).2.1.ServiceMethod ≠
      specBareMethod sreqArith.Method := by
  refine ⟨rfl, rfl, by decide, by decide⟩

/-- C6 (amended): for a decoded request whose method contains the
qualifier separator, ReadRequestHeader succeeds and returns the newly
allocated sequence number together with the full qualified method string;
the qualifier is only validated, never stripped. -/
theorem readRequestHeader_returns_full_method
    (c : serverCodec) (r : Request) (sreq : serverRequest)
    (hdot : ¬ lastIndex sreq.Method dotChar < 0) :
    (readRequestHeader c r (Except.ok sreq)).2.2 = none ∧
    (readRequestHeader c r (Except.ok sreq)).2.1.Seq = (c.seq + 1) % 2 ^ 64 ∧
    (readRequestHeader c r (Except.ok sreq)).2.1.ServiceMethod = sreq.Method := by
  rw [readRequestHeader_eq_of_dot c r sreq hdot]
  exact ⟨rfl, rfl, rfl⟩

/-- C6 witness: the amended claim at the Arith.Sub request. -/
theorem readRequestHeader_returns_full_method_witness :
    (readRequestHeader cEmpty req0 (Except.ok sreqArith)).2.2 = none ∧
    (readRequestHeader cEmpty req0 (Except.ok sreqArith)).2.1.Seq =
      (cEmpty.seq + 1) % 2 ^ 64 ∧
    (readRequestHeader cEmpty req0 (Except.ok sreqArith)).2.1.ServiceMethod =
      sreqArith.Method :=
  readRequestHeader_returns_full_method cEmpty req0 sreqArith (by decide)

/-- C7: for a resolved non-notification identifier the written envelope
carries the protocol version, the resolved original identifier, and
exactly one of result or error: the error when one is supplied, the
caller-supplied result value otherwise — never both and never neither. -/
theorem writeResponse_envelope_exactly_one
    (c : serverCodec) (r : Response) (x : Json) (idJson : Json)
    (w : Option String)
    (h : mapLookup c.pending r.Seq = some (some idJson)) :
    ∃ resp : serverResponse,
      (writeResponse c r x none w).2.1 = [WireItem.envelope resp] ∧
      resp.Version = Version ∧
      resp.Id = idJson ∧
      (∀ e : Error, r.Error = some e → resp.Result = none ∧ resp.Error = some e) ∧
      (r.Error = none → resp.Result = some x ∧ resp.Error = none) ∧
      ((resp.Result).isSome ↔ resp.Error = none) := by
  refine ⟨{ Version := Version, Id := idJson
            Result := if r.Error.isSome then none else some x
            Error := r.Error }, ?_, rfl, rfl, ?_, ?_, ?_⟩
  · unfold writeResponse
    rw [h]
  · intro e he
    rw [he]
    exact ⟨rfl, rfl⟩
  · intro he
    rw [he]
    exact ⟨rfl, rfl⟩
  · cases hre : r.Error <;> simp [hre]

/-- C7 witness: at a codec whose entry for sequence 1 is id 7, a write
with no error produces the result-only envelope for id 7. -/
theorem writeResponse_envelope_exactly_one_witness :
    ∃ resp : serverResponse,
      (writeResponse cPend respOk (Json.num 3) none none).2.1 =
        [WireItem.envelope resp] ∧
      resp.Version = Version ∧
      resp.Id = Json.num 7 ∧
      (∀ e : Error, respOk.Error = some e → resp.Result = none ∧ resp.Error = some e) ∧
      (respOk.Error = none → resp.Result = some (Json.num 3) ∧ resp.Error = none) ∧
      ((resp.Result).isSome ↔ resp.Error = none) :=
  writeResponse_envelope_exactly_one cPend respOk (Json.num 3) (Json.num 7) none rfl

/-- C8 counterexample: the decoded request whose jsonrpc member reads 1.0
is still accepted by ReadRequestHeader. -/
theorem readRequestHeader_version_unchecked_counterexample :
    sreqOldVersion.Version ≠ Version ∧
    (readRequestHeader cEmpty req0 (Except.ok sreqOldVersion)).2.2 = none :=
  ⟨by decide, rfl⟩

/-- C8 (amended): ReadRequestHeader never examines the version member:
its error outcome is invariant under any substitution of the version
string, and a decoded request is accepted exactly when its method
contains the qualifier separator. -/
theorem readRequestHeader_ignores_version
    (c : serverCodec) (r : Request) (sreq : serverRequest) (v : String) :
    (readRequestHeader c r (Except.ok { sreq with Version := v })).2.2 =
      (readRequestHeader c r (Except.ok sreq)).2.2 ∧
    ((readRequestHeader c r (Except.ok sreq)).2.2 = none ↔
      ¬ lastIndex sreq.Method dotChar < 0) := by
  constructor
  · by_cases hdot : lastIndex sreq.Method dotChar < 0
    · rw [readRequestHeader_eq_of_no_dot c r sreq hdot,
        readRequestHeader_eq_of_no_dot c r { sreq with Version := v } hdot]
    · rw [readRequestHeader_eq_of_dot c r sreq hdot,
        readRequestHeader_eq_of_dot c r { sreq with Version := v } hdot]
  · by_cases hdot : lastIndex sreq.Method dotChar < 0
    · rw [readRequestHeader_eq_of_no_dot c r sreq hdot]
      simp [hdot]
    · rw [readRequestHeader_eq_of_dot c r sreq hdot]
      simp [hdot]

/-- C9: whenever ReadRequestHeader rejects — a decode failure surfaced
verbatim or the missing-qualifier error — the sequence counter and the
pending correlation table are left exactly as they were: no entry is ever
created for a rejected request. -/
theorem readRequestHeader_failure_preserves_state
    (c : serverCodec) (r : Request) :
    (∀ e : String,
      (readRequestHeader c r (Except.error e)).2.2 ≠ none ∧
      (readRequestHeader c r (Except.error e)).1.seq = c.seq ∧
      (readRequestHeader c r (Except.error e)).1.pending = c.pending) ∧
    (∀ sreq : serverRequest, lastIndex sreq.Method dotChar < 0 →
      (readRequestHeader c r (Except.ok sreq)).2.2 ≠ none ∧
      (readRequestHeader c r (Except.ok sreq)).1.seq = c.seq ∧
      (readRequestHeader c r (Except.ok sreq)).1.pending = c.pending) := by
  constructor
  · intro e
    exact ⟨fun hc => Option.noConfusion hc, rfl, rfl⟩
  · intro sreq hdot
    rw [readRequestHeader_eq_of_no_dot c r sreq hdot]
    exact ⟨fun hc => Option.noConfusion hc, rfl, rfl⟩

/-- C9 witness: at a decode failure and at the qualifier-less request both
rejection paths leave the counter at 0 and the table empty. -/
theorem readRequestHeader_failure_preserves_state_witness :
    ((readRequestHeader cEmpty req0 (Except.error decodeFailMsg)).2.2 ≠ none ∧
      (readRequestHeader cEmpty req0 (Except.error decodeFailMsg)).1.seq = cEmpty.seq ∧
      (readRequestHeader cEmpty req0 (Except.error decodeFailMsg)).1.pending =
        cEmpty.pending) ∧
    ((readRequestHeader cEmpty req0 (Except.ok sreqNoDot)).2.2 ≠ none ∧
      (readRequestHeader cEmpty req0 (Except.ok sreqNoDot)).1.seq = cEmpty.seq ∧
      (readRequestHeader cEmpty req0 (Except.ok sreqNoDot)).1.pending =
        cEmpty.pending) :=
  ⟨(readRequestHeader_failure_preserves_state cEmpty req0).1 decodeFailMsg,
    (readRequestHeader_failure_preserves_state cEmpty req0).2 sreqNoDot (by decide)⟩

/-- C10: for a notification — stored identifier is the nil marker —
WriteResponse returns success for every outcome of the delimiter write,
whose return value the source discards. -/
theorem writeResponse_notification_ignores_write_failure
    (c : serverCodec) (r : Response) (x : Json) (e : Option String)
    (h : mapLookup c.pending r.Seq = some none) :
    ∀ w : Option String, (writeResponse c r x e w).2.2 = none := by
  intro w
  unfold writeResponse
  rw [h]

/-- C10 witness: WriteResponse still reports success when the delimiter
write fails with a broken pipe. -/
theorem writeResponse_notification_ignores_write_failure_witness :
    (writeResponse cNotif respOk Json.null none (some writeFailMsg)).2.2 = none :=
  writeResponse_notification_ignores_write_failure cNotif respOk Json.null none
    rfl (some writeFailMsg)

end Jsonrpc2
